import Mathlib

/-!
Shallow embedding of the AI helper pipeline of the prisma-ai-console
repository (src/aiHelper.js): schema loading, prompt construction,
multi-provider LLM dispatch, response normalization, and in-session
command execution.  State (console output, issued HTTP requests,
evaluated commands, the `lastCommand` slot) is made explicit; fallible
operations return `Option`/`Except`.
-/

/-- The backtick character, written via its code point. -/
def btick : Char := Char.ofNat 96

/-- JS whitespace test used by `String.prototype.trim` (the common ASCII
whitespace characters; the model omits exotic Unicode spaces). -/
def isWs (c : Char) : Bool :=
  c == ' ' || c == '\n' || c == '\t' || c == '\r' || c == Char.ofNat 11 || c == Char.ofNat 12

/-- Drop leading whitespace (left half of `trim`). -/
def trimL (s : List Char) : List Char := s.dropWhile isWs

/-- Drop trailing whitespace (right half of `trim`). -/
def trimR (s : List Char) : List Char := (s.reverse.dropWhile isWs).reverse

/-- Model of JS `String.prototype.trim` on character lists. -/
def jsTrim (s : List Char) : List Char := trimR (trimL s)

/-- Consume one optional leading newline (the `\n?` part of the fence
regexes in `src/aiHelper.js`). -/
def dropNl : List Char → List Char
  | [] => []
  | c :: cs => if c == '\n' then cs else c :: cs

/-- Three backticks: the start of every fence pattern. -/
def fence3 : List Char := [btick, btick, btick]

/-- Fuel-indexed scanner modelling JS `str.replace(/```tag\n?/g, "")`:
left-to-right, non-overlapping; at a match the pattern and an optional
following newline are consumed and nothing is emitted; otherwise one
character is emitted.  The fuel only serves structural recursion and is
irrelevant once it bounds the input length. -/
def stripFenceF (tag : List Char) : Nat → List Char → List Char
  | 0, s => s
  | _ + 1, [] => []
  | fuel + 1, c :: cs =>
    if (fence3 ++ tag).isPrefixOf (c :: cs) then
      stripFenceF tag fuel (dropNl (List.drop (fence3 ++ tag).length (c :: cs)))
    else
      c :: stripFenceF tag fuel cs

/-- Model of JS `str.replace(/```tag\n?/g, "")`. -/
def stripFence (tag : List Char) (s : List Char) : List Char :=
  stripFenceF tag s.length s

/-- The `js` fence tag. -/
def jsTag : List Char := ['j', 's']

/-- The `javascript` fence tag. -/
def javascriptTag : List Char := ['j', 'a', 'v', 'a', 's', 'c', 'r', 'i', 'p', 't']

/-- The clean-up done by `ai` in src/aiHelper.js:
`.replace(/```javascript\n?/g, "").replace(/```js\n?/g, "").trim()`.
Note: no untagged-fence removal here. -/
def cleanAiList (l : List Char) : List Char :=
  jsTrim (stripFence jsTag (stripFence javascriptTag l))

/-- The clean-up done by `run` in src/aiHelper.js:
`.replace(/```javascript\n?/g, "").replace(/```js\n?/g, "").replace(/```\n?/g, "").trim()`. -/
def cleanRunList (l : List Char) : List Char :=
  jsTrim (stripFence [] (stripFence jsTag (stripFence javascriptTag l)))

/-- `ai`'s normalization, on strings. -/
def normalizeAi (s : String) : String := ⟨cleanAiList s.data⟩

/-- `run`'s normalization, on strings. -/
def normalizeRun (s : String) : String := ⟨cleanRunList s.data⟩

/-- Model of JS `String.prototype.trim` on strings (used by `callLLM` on
the extracted completion). -/
def strTrim (s : String) : String := ⟨jsTrim s.data⟩

-- sanity checks (concrete evaluation)
example : normalizeRun "```js\nx\n```" = "x" := by decide
example : normalizeAi "```js\nx\n```" = "x\n```" := by decide
example : normalizeRun "```javascript\nawait f()\n```  " = "await f()" := by decide

/-- Does a character list contain three consecutive backticks? -/
def hasFence : List Char → Bool
  | [] => false
  | c :: cs => fence3.isPrefixOf (c :: cs) || hasFence cs

/-- Is the first character a backtick? -/
def headTick : List Char → Bool
  | [] => false
  | c :: _ => btick == c

/-- Are the first two characters backticks? -/
def twoTick : List Char → Bool
  | a :: b :: _ => btick == a && (btick == b)
  | _ => false

theorem dropNl_length_le (s : List Char) : (dropNl s).length ≤ s.length := by
  cases s with
  | nil => simp [dropNl]
  | cons c cs =>
    simp only [dropNl]
    split
    · exact Nat.le_succ _
    · exact Nat.le_refl _

theorem fence3_append_length (tag : List Char) :
    (fence3 ++ tag).length = 3 + tag.length := by
  simp [fence3]
  omega

theorem stripFenceF_fuel (tag : List Char) :
    ∀ (f₁ : Nat) (s : List Char) (f₂ : Nat), s.length ≤ f₁ → s.length ≤ f₂ →
      stripFenceF tag f₁ s = stripFenceF tag f₂ s := by
  intro f₁
  induction f₁ with
  | zero =>
    intro s f₂ h₁ _
    have hs : s = [] := List.eq_nil_of_length_eq_zero (Nat.le_zero.mp h₁)
    subst hs
    cases f₂ <;> simp [stripFenceF]
  | succ g ih =>
    intro s f₂ h₁ h₂
    match s with
    | [] => cases f₂ <;> simp [stripFenceF]
    | c :: cs =>
      cases f₂ with
      | zero => simp at h₂
      | succ h =>
        have hd := dropNl_length_le (List.drop (fence3 ++ tag).length (c :: cs))
        rw [List.length_drop] at hd
        by_cases hm : ((fence3 ++ tag).isPrefixOf (c :: cs)) = true
        · simp only [stripFenceF, hm, if_true]
          apply ih
          · have h3 := fence3_append_length tag
            simp only [List.length_cons] at h₁ hd ⊢
            omega
          · have h3 := fence3_append_length tag
            simp only [List.length_cons] at h₂ hd ⊢
            omega
        · simp only [stripFenceF, hm, if_false, Bool.false_eq_true]
          simp only [List.length_cons] at h₁ h₂
          rw [ih cs h (by omega) (by omega)]

theorem stripFence_nil (tag : List Char) : stripFence tag [] = [] := rfl

theorem stripFence_cons_pos (tag : List Char) (c : Char) (cs : List Char)
    (hm : ((fence3 ++ tag).isPrefixOf (c :: cs)) = true) :
    stripFence tag (c :: cs) =
      stripFence tag (dropNl (List.drop (fence3 ++ tag).length (c :: cs))) := by
  unfold stripFence
  have h1 : stripFenceF tag (c :: cs).length (c :: cs) =
      stripFenceF tag cs.length (dropNl (List.drop (fence3 ++ tag).length (c :: cs))) := by
    simp only [List.length_cons, stripFenceF, hm, if_true]
  rw [h1]
  apply stripFenceF_fuel
  · have hd := dropNl_length_le (List.drop (fence3 ++ tag).length (c :: cs))
    rw [List.length_drop] at hd
    have h3 := fence3_append_length tag
    simp only [List.length_cons] at hd ⊢
    omega
  · exact Nat.le_refl _

theorem stripFence_cons_neg (tag : List Char) (c : Char) (cs : List Char)
    (hm : ((fence3 ++ tag).isPrefixOf (c :: cs)) = false) :
    stripFence tag (c :: cs) = c :: stripFence tag cs := by
  unfold stripFence
  simp only [List.length_cons, stripFenceF, hm, Bool.false_eq_true, if_false]

theorem twoTick_eq_isPrefixOf (l : List Char) :
    [btick, btick].isPrefixOf l = twoTick l := by
  match l with
  | [] => rfl
  | [d] => simp [List.isPrefixOf, twoTick]
  | d :: e :: es => simp [List.isPrefixOf, twoTick]

theorem fence3_isPrefixOf_cons (c : Char) (l : List Char) :
    fence3.isPrefixOf (c :: l) = ((btick == c) && twoTick l) := by
  simp [fence3, List.isPrefixOf, twoTick_eq_isPrefixOf]

theorem headTick_stripFence (s : List Char) (h : headTick s = false) :
    headTick (stripFence [] s) = false := by
  cases s with
  | nil => simpa [stripFence_nil] using h
  | cons c cs =>
    have hc : (btick == c) = false := by simpa [headTick] using h
    have hm : ((fence3 ++ ([] : List Char)).isPrefixOf (c :: cs)) = false := by
      simp [List.append_nil, fence3_isPrefixOf_cons, hc]
    rw [stripFence_cons_neg _ _ _ hm]
    simpa [headTick] using hc

theorem twoTick_stripFence (s : List Char) (h : twoTick s = false) :
    twoTick (stripFence [] s) = false := by
  cases s with
  | nil => simp [stripFence_nil, twoTick]
  | cons c cs =>
    cases hcb : (btick == c) with
    | false =>
      have hm : ((fence3 ++ ([] : List Char)).isPrefixOf (c :: cs)) = false := by
        simp [List.append_nil, fence3_isPrefixOf_cons, hcb]
      rw [stripFence_cons_neg _ _ _ hm]
      cases stripFence [] cs with
      | nil => simp [twoTick]
      | cons d ds => simp [twoTick, hcb]
    | true =>
      have hcs : headTick cs = false := by
        cases cs with
        | nil => rfl
        | cons d ds =>
          simp [twoTick, hcb] at h
          simpa [headTick] using h
      have htw : twoTick cs = false := by
        cases cs with
        | nil => rfl
        | cons d ds =>
          cases ds with
          | nil => rfl
          | cons e es =>
            simp [headTick] at hcs
            simp [twoTick, hcs]
      have hm : ((fence3 ++ ([] : List Char)).isPrefixOf (c :: cs)) = false := by
        simp [List.append_nil, fence3_isPrefixOf_cons, htw]
      rw [stripFence_cons_neg _ _ _ hm]
      have hst := headTick_stripFence cs hcs
      cases hout : stripFence [] cs with
      | nil => simp [twoTick]
      | cons d ds =>
        rw [hout] at hst
        simp [headTick] at hst
        simp [twoTick, hst]

theorem hasFence_stripFence_untagged :
    ∀ (n : Nat) (s : List Char), s.length ≤ n → hasFence (stripFence [] s) = false := by
  intro n
  induction n with
  | zero =>
    intro s h
    have hs : s = [] := List.eq_nil_of_length_eq_zero (Nat.le_zero.mp h)
    subst hs
    simp [stripFence_nil, hasFence]
  | succ n ih =>
    intro s h
    cases s with
    | nil => simp [stripFence_nil, hasFence]
    | cons c cs =>
      cases hm : ((fence3 ++ ([] : List Char)).isPrefixOf (c :: cs)) with
      | true =>
        rw [stripFence_cons_pos _ _ _ hm]
        apply ih
        have hd := dropNl_length_le (List.drop (fence3 ++ ([] : List Char)).length (c :: cs))
        rw [List.length_drop] at hd
        have h3 := fence3_append_length ([] : List Char)
        simp only [List.length_cons] at h hd ⊢
        omega
      | false =>
        rw [stripFence_cons_neg _ _ _ hm]
        have hcs : hasFence (stripFence [] cs) = false := by
          apply ih
          simp only [List.length_cons] at h
          omega
        cases hcb : (btick == c) with
        | false => simp [hasFence, hcs, fence3_isPrefixOf_cons, hcb]
        | true =>
          have ht : twoTick cs = false := by
            simpa [List.append_nil, fence3_isPrefixOf_cons, hcb] using hm
          have ht2 := twoTick_stripFence cs ht
          simp [hasFence, hcs, fence3_isPrefixOf_cons, hcb, ht2]

theorem stripFence_of_no_fence (tag : List Char) :
    ∀ (s : List Char), hasFence s = false → stripFence tag s = s := by
  intro s
  induction s with
  | nil => intro _; rfl
  | cons c cs ih =>
    intro h
    have h12 : fence3.isPrefixOf (c :: cs) = false ∧ hasFence cs = false := by
      simpa [hasFence] using h
    have hm : ((fence3 ++ tag).isPrefixOf (c :: cs)) = false := by
      cases hq : ((fence3 ++ tag).isPrefixOf (c :: cs)) with
      | false => rfl
      | true =>
        exfalso
        have hp : (fence3 ++ tag) <+: (c :: cs) := List.isPrefixOf_iff_prefix.mp hq
        have hp3 : fence3 <+: (c :: cs) := (List.prefix_append fence3 tag).trans hp
        have hb := List.isPrefixOf_iff_prefix.mpr hp3
        rw [h12.1] at hb
        exact Bool.false_ne_true hb
    rw [stripFence_cons_neg _ _ _ hm, ih h12.2]

theorem hasFence_eq_true_iff (s : List Char) : hasFence s = true ↔ fence3 <:+: s := by
  induction s with
  | nil => simp [hasFence, List.infix_nil, fence3]
  | cons c cs ih =>
    simp [hasFence, ih, List.infix_cons_iff, List.isPrefixOf_iff_prefix]

theorem hasFence_false_mono {t s : List Char} (hts : t <:+: s)
    (h : hasFence s = false) : hasFence t = false := by
  cases hq : hasFence t with
  | false => rfl
  | true =>
    exfalso
    have h1 := (hasFence_eq_true_iff t).mp hq
    have h2 := (hasFence_eq_true_iff s).mpr (h1.trans hts)
    rw [h] at h2
    exact Bool.false_ne_true h2

theorem trimR_prefix_self (s : List Char) : trimR s <+: s := by
  unfold trimR
  have h := List.dropWhile_suffix (l := s.reverse) isWs
  have h2 := List.reverse_prefix.mpr h
  rwa [List.reverse_reverse] at h2

theorem jsTrim_infix_self (s : List Char) : jsTrim s <:+: s :=
  ((trimR_prefix_self (trimL s)).isInfix).trans ((List.dropWhile_suffix isWs).isInfix)

theorem dropWhile_idem (p : Char → Bool) (l : List Char) :
    List.dropWhile p (List.dropWhile p l) = List.dropWhile p l := by
  induction l with
  | nil => rfl
  | cons c cs ih =>
    cases hp : p c with
    | true => simp [List.dropWhile_cons, hp, ih]
    | false => simp [List.dropWhile_cons, hp]

theorem dropWhile_eq_self_of_prefix (p : Char → Bool) {l₁ l₂ : List Char}
    (hpre : l₁ <+: l₂) (h : List.dropWhile p l₂ = l₂) :
    List.dropWhile p l₁ = l₁ := by
  cases l₁ with
  | nil => rfl
  | cons a t =>
    obtain ⟨r, hr⟩ := hpre
    cases hp : p a with
    | false => simp [List.dropWhile_cons, hp]
    | true =>
      exfalso
      subst hr
      rw [List.cons_append, List.dropWhile_cons, hp] at h
      have hle := (List.dropWhile_suffix (l := t ++ r) p).length_le
      rw [if_pos rfl] at h
      rw [h] at hle
      simp at hle

theorem trimR_idem (s : List Char) : trimR (trimR s) = trimR s := by
  unfold trimR
  rw [List.reverse_reverse, dropWhile_idem]

theorem jsTrim_idem (s : List Char) : jsTrim (jsTrim s) = jsTrim s := by
  unfold jsTrim
  have hu : List.dropWhile isWs (trimL s) = trimL s := by
    unfold trimL
    exact dropWhile_idem isWs s
  have h2 : trimL (trimR (trimL s)) = trimR (trimL s) :=
    dropWhile_eq_self_of_prefix isWs (trimR_prefix_self (trimL s)) hu
  rw [h2, trimR_idem]

theorem cleanRun_no_fence (l : List Char) : hasFence (cleanRunList l) = false := by
  unfold cleanRunList
  apply hasFence_false_mono (jsTrim_infix_self _)
  exact hasFence_stripFence_untagged
    (stripFence jsTag (stripFence javascriptTag l)).length _ (Nat.le_refl _)

theorem cleanRun_idem (l : List Char) :
    cleanRunList (cleanRunList l) = cleanRunList l := by
  have hC := cleanRun_no_fence l
  rw [show cleanRunList (cleanRunList l) =
      jsTrim (stripFence [] (stripFence jsTag (stripFence javascriptTag (cleanRunList l))))
    from rfl]
  rw [stripFence_of_no_fence _ _ hC]
  rw [stripFence_of_no_fence _ _ hC]
  rw [stripFence_of_no_fence _ _ hC]
  rw [show cleanRunList l =
      jsTrim (stripFence [] (stripFence jsTag (stripFence javascriptTag l))) from rfl]
  rw [jsTrim_idem]

/-- The three LLM providers of src/aiHelper.js. -/
inductive Provider where
  | openrouter
  | openai
  | anthropic
deriving DecidableEq

/-- The environment variables consulted by `callLLM`.  `none` models an
unset variable; `some ""` a variable set to the empty string (falsy in
JS). -/
structure Env where
  OPENROUTER_API_KEY : Option String
  OPENAI_API_KEY : Option String
  ANTHROPIC_API_KEY : Option String
  OPENROUTER_MODEL : Option String

/-- JS truthiness of an environment variable: present and non-empty. -/
def isSet (v : Option String) : Bool :=
  match v with
  | none => false
  | some s => s != ""

/-- JS `v || d` for environment strings: `d` when `v` is absent or empty. -/
def jsOr (v : Option String) (d : String) : String :=
  match v with
  | none => d
  | some s => if s == "" then d else s

/-- The endpoint URL each provider branch of `callLLM` POSTs to. -/
def endpointOf : Provider → String
  | .openrouter => "https://openrouter.ai/api/v1/chat/completions"
  | .openai => "https://api.openai.com/v1/chat/completions"
  | .anthropic => "https://api.anthropic.com/v1/messages"

/-- One HTTP request issued by `callLLM` (the observable part of the
provider-specific fetch). -/
structure LLMCall where
  provider : Provider
  url : String
  model : String
  prompt : String
deriving DecidableEq

/-- Outcome of `callLLM`: either the extracted, trimmed completion, or a
thrown `Error` carrying its message. -/
inductive LLMOut where
  | ok (content : String)
  | error (msg : String)
deriving DecidableEq

/-- The network transport: for a given provider, either the completion
content extracted from that provider's response envelope, or the error
body text of a non-success response. -/
abbrev Transport : Type := Provider → Except String String

/-- Model of `callLLM` (src/aiHelper.js): credential check, then the
fixed OpenRouter / OpenAI / Anthropic if-chain.  The first component
records every request issued during the call. -/
def callLLM (env : Env) (transport : Transport) (prompt : String) :
    List LLMCall × LLMOut :=
  -- const apiKey = OPENAI_API_KEY || ANTHROPIC_API_KEY || OPENROUTER_API_KEY
  if !(isSet env.OPENAI_API_KEY || isSet env.ANTHROPIC_API_KEY || isSet env.OPENROUTER_API_KEY) then
    ([], .error "No API key found. Please set OPENAI_API_KEY, ANTHROPIC_API_KEY, or OPENROUTER_API_KEY environment variable.")
  else if isSet env.OPENROUTER_API_KEY then
    ([⟨.openrouter, endpointOf .openrouter, jsOr env.OPENROUTER_MODEL "anthropic/claude-3.5-sonnet", prompt⟩],
      match transport .openrouter with
      | .ok content => .ok (strTrim content)
      | .error body => .error ("OpenRouter API error: " ++ body))
  else if isSet env.OPENAI_API_KEY then
    ([⟨.openai, endpointOf .openai, "gpt-4o-mini", prompt⟩],
      match transport .openai with
      | .ok content => .ok (strTrim content)
      | .error body => .error ("OpenAI API error: " ++ body))
  else if isSet env.ANTHROPIC_API_KEY then
    ([⟨.anthropic, endpointOf .anthropic, "claude-3-5-sonnet-20241022", prompt⟩],
      match transport .anthropic with
      | .ok content => .ok (strTrim content)
      | .error body => .error ("Anthropic API error: " ++ body))
  else
    ([], .error "No supported LLM API key found")

/-- Model of `generatePrompt` (src/aiHelper.js): the fixed instruction
template with the schema and the user query spliced in. -/
def generatePrompt (schema : String) (userQuery : String) : String :=
  "You are a Prisma ORM expert. Given the following Prisma schema, generate the exact Prisma Client command to accomplish the user\x27s request.\n\nPRISMA SCHEMA:\n```prisma\n"
    ++ schema
    ++ "\n```\n\nUSER REQUEST: "
    ++ userQuery
    ++ "\n\nINSTRUCTIONS:\n- Return ONLY the Prisma command, no explanations\n- Use the prisma client instance (already available as \x27prisma\x27)\n- Format as executable JavaScript code with proper indentation\n- Use multi-line formatting for better readability\n- Include necessary options like \x27include\x27, \x27select\x27, \x27where\x27, etc.\n- Use async/await syntax with \x27await\x27\n\nEXAMPLE OUTPUT FORMAT:\nawait prisma.user.findMany(\x7b\n  where: \x7b\n    email: \x7b\n      contains: \x27@example.com\x27\n    \x7d\n  \x7d\n\x7d)\n\nGenerate the command:"

/-- A JS return value of `ai`: the distinction between `undefined`,
`null` and a string result matters for the exposed-surface contract. -/
inductive JSRet where
  | undefined
  | null
  | str (s : String)
deriving DecidableEq

/-- Observable effects of one `ai` call: console lines, issued provider
requests, and the resolved value. -/
structure AiResult where
  printed : List String
  calls : List LLMCall
  ret : JSRet
deriving DecidableEq

/-- The usage message `ai` prints on a missing or falsy query. -/
def usageAi : List String :=
  ["Usage: ai(\x27your natural language query\x27)",
   "Example: ai(\x27find all users with gmail addresses\x27)"]

/-- Model of the real `ai` closure created by `createAIFunction`.
`query = none` models an absent or non-string argument; `some ""` the
falsy empty string.  Every path ends without a `return` value, i.e.
resolves to `undefined`. -/
def ai (schema : String) (env : Env) (transport : Transport)
    (query : Option String) : AiResult :=
  match query with
  | none => { printed := usageAi, calls := [], ret := .undefined }
  | some q =>
    if q == "" then { printed := usageAi, calls := [], ret := .undefined }
    else
      match callLLM env transport (generatePrompt schema q) with
      | (calls, .ok command) =>
        let cleanCommand := normalizeAi command
        { printed := ["🤖 Generating Prisma command...", "\n✨ Generated command:",
            cleanCommand, "\n💡 Copy and paste to execute\n"],
          calls := calls, ret := .undefined }
      | (calls, .error msg) =>
        { printed := ["🤖 Generating Prisma command...", "❌ Error generating command: " ++ msg],
          calls := calls, ret := .undefined }

/-- A JS return value of `run`, over the session's value type `α`. -/
inductive RunRet (α : Type) where
  | undefined
  | null
  | val (a : α)
deriving DecidableEq

/-- Observable effects of one `run` call: console lines, issued provider
requests, commands handed to the session evaluator, and the resolved
value. -/
structure RunResult (α : Type) where
  printed : List String
  calls : List LLMCall
  evals : List String
  ret : RunRet α

/-- The usage message `run` prints on a missing or falsy query. -/
def usageRun : List String :=
  ["Usage: run(\x27your natural language query\x27)",
   "Example: run(\x27find all users with gmail addresses\x27)"]

/-- Model of the real `run` closure created by `createAIFunction`.
`evalCmd` is the session evaluation primitive (`replServer.eval` when
`replAvail`, the direct-`eval` fallback otherwise; in both paths a
throw/reject is caught, its message logged, and the call resolves to
`null`).  The second component is the new value of the session-global
`lastCommand`. -/
def run {α : Type} (schema : String) (env : Env) (transport : Transport)
    (replAvail : Bool) (evalCmd : String → Except String α)
    (lastCommand : Option String) (query : Option String) :
    RunResult α × Option String :=
  match query with
  | none => ({ printed := usageRun, calls := [], evals := [], ret := .undefined }, lastCommand)
  | some q =>
    if q == "" then
      ({ printed := usageRun, calls := [], evals := [], ret := .undefined }, lastCommand)
    else
      match callLLM env transport (generatePrompt schema q) with
      | (calls, .ok command) =>
        let cleanCommand := normalizeRun command
        let pre := ["🤖 Generating and running Prisma command...",
          "\n✨ Generated: " ++ cleanCommand, "🚀 Executing...\n"]
        if replAvail then
          match evalCmd cleanCommand with
          | .error e =>
            ({ printed := pre ++ ["❌ Error: " ++ e], calls := calls,
               evals := [cleanCommand], ret := .null }, some cleanCommand)
          | .ok v =>
            ({ printed := pre, calls := calls, evals := [cleanCommand], ret := .val v },
             some cleanCommand)
        else
          match evalCmd cleanCommand with
          | .error e =>
            ({ printed := pre ++ ["❌ Error: " ++ e], calls := calls,
               evals := [cleanCommand], ret := .null }, some cleanCommand)
          | .ok v =>
            ({ printed := pre, calls := calls, evals := [cleanCommand], ret := .val v },
             some cleanCommand)
      | (calls, .error msg) =>
        ({ printed := ["🤖 Generating and running Prisma command...", "❌ Error: " ++ msg],
           calls := calls, evals := [], ret := .null }, lastCommand)

/-- The file-system interface used by `readPrismaSchema`:
`fs.existsSync` and `fs.readFileSync` (a read failure is a thrown
error, modelled as `Except.error` with the error message). -/
structure FS where
  existsSync : String → Bool
  readFileSync : String → Except String String

/-- POSIX model of `path.isAbsolute`. -/
def isAbsolute (p : String) : Bool := p.startsWith "/"

/-- Shallow model of `path.join` (no candidate normalization is needed
by any claim). -/
def pathJoin (a b : String) : String := a ++ "/" ++ b

/-- Model of `readPrismaSchema` (src/aiHelper.js).  With an absent
`schemaPath`, `path.isAbsolute(undefined)` throws a TypeError inside the
`try`, which is caught, logged and collapsed to `null` — no candidate
path is consulted.  With an explicit path, only that resolved path is
tried; a missing file or a read error also collapses to `null`. -/
def readPrismaSchema (cwd : String) (fs : FS) (schemaPath : Option String) :
    Option String :=
  match schemaPath with
  | none => none
  | some p =>
    let resolvedPath := if isAbsolute p then p else pathJoin cwd p
    if fs.existsSync resolvedPath then
      match fs.readFileSync resolvedPath with
      | .ok content => some content
      | .error _ => none
    else
      none

/-- What `createAIFunction` installs into the session: the degraded
stubs, or the real closures over the loaded schema text. -/
inductive AiFns where
  | stubs
  | real (schema : String)
deriving DecidableEq

/-- Model of `createAIFunction` (src/aiHelper.js).  The source guard is
`if (!schema)`, which is truthy both for `null` (load failure) and for
the empty string. -/
def createAIFunction (cwd : String) (fs : FS) (schemaPath : Option String) : AiFns :=
  match readPrismaSchema cwd fs schemaPath with
  | none => .stubs
  | some schema => if schema == "" then .stubs else .real schema

/-- The fixed message printed by the `ai` stub. -/
def stubAiMsg : String :=
  "❌ Could not find Prisma schema. Please ensure schema.prisma exists in your project."

/-- The fixed message printed by the `run` stub. -/
def stubRunMsg : String := "❌ Schema not loaded"

/-- Behaviour of the `ai` binding actually installed in the session:
stub or real closure, as selected by `createAIFunction`. -/
def installedAi (fns : AiFns) (env : Env) (transport : Transport)
    (query : Option String) : AiResult :=
  match fns with
  | .stubs => { printed := [stubAiMsg], calls := [], ret := .undefined }
  | .real schema => ai schema env transport query

/-- Behaviour of the `run` binding actually installed in the session. -/
def installedRun {α : Type} (fns : AiFns) (env : Env) (transport : Transport)
    (replAvail : Bool) (evalCmd : String → Except String α)
    (lastCommand : Option String) (query : Option String) :
    RunResult α × Option String :=
  match fns with
  | .stubs =>
    ({ printed := [stubRunMsg], calls := [], evals := [], ret := .undefined }, lastCommand)
  | .real schema => run schema env transport replAvail evalCmd lastCommand query

/-- Modelled from the spec: the provider-selection function described in
§4.2 — the first provider in the fixed order OpenRouter, OpenAI,
Anthropic whose credential is set.  Used as the specification side of
the refinement stated in C1. -/
def specFirstProvider (env : Env) : Option Provider :=
  if isSet env.OPENROUTER_API_KEY then some .openrouter
  else if isSet env.OPENAI_API_KEY then some .openai
  else if isSet env.ANTHROPIC_API_KEY then some .anthropic
  else none

/-- Environment with only the OpenRouter credential set. -/
def envOpenRouterOnly : Env := ⟨some "or-key", none, none, none⟩

/-- Environment with no credential set. -/
def envNone : Env := ⟨none, none, none, none⟩

/-- Transport returning the fenced completion of the spec's end-to-end
scenario A, for every provider. -/
def trScenarioA : Transport := fun _ => .ok "```js\nawait prisma.user.findMany()\n```"

/-- Transport returning a plain, unfenced completion. -/
def trOk : Transport := fun _ => .ok "await prisma.user.count()"

/-- Transport failing with a non-success response body. -/
def trFail : Transport := fun _ => .error "boom"

/-- Session evaluator that always rejects. -/
def evalFail : String → Except String Unit := fun _ => .error "DB down"

/-- Session evaluator that always succeeds. -/
def evalOkU : String → Except String Unit := fun _ => .ok ()

/-- File system on which every path exists and reads a fixed schema. -/
def fsAll : FS := ⟨fun _ => true, fun _ => .ok "model User \x7b id Int @id \x7d"⟩

/-- File system on which every path exists and reads empty content. -/
def fsEmpty : FS := ⟨fun _ => true, fun _ => .ok ""⟩

/-- File system on which no path exists. -/
def fsNone : FS := ⟨fun _ => false, fun _ => .error "ENOENT"⟩

/-- C1: for every environment in which at least one credential is set,
`callLLM` issues exactly one request, to the endpoint of the first
provider in the fixed order OpenRouter, OpenAI, Anthropic whose
credential is set, independently of whether the transport succeeds or
fails — no other provider is ever contacted. -/
theorem c1_callLLM_selects_exactly_one (env : Env) (transport : Transport)
    (prompt : String) (p : Provider) (h : specFirstProvider env = some p) :
    ((callLLM env transport prompt).1).map LLMCall.provider = [p] ∧
    ((callLLM env transport prompt).1).map LLMCall.url = [endpointOf p] := by
  unfold specFirstProvider at h
  unfold callLLM
  cases h1 : isSet env.OPENROUTER_API_KEY <;>
    cases h2 : isSet env.OPENAI_API_KEY <;>
      cases h3 : isSet env.ANTHROPIC_API_KEY <;>
        simp [h1, h2, h3] at h ⊢ <;>
          subst h <;>
            constructor <;> rfl

/-- C1 witness: with only OpenRouter configured and a failing transport,
the single request goes to the OpenRouter endpoint. -/
theorem c1_witness :
    specFirstProvider envOpenRouterOnly = some Provider.openrouter ∧
    ((callLLM envOpenRouterOnly trFail "p").1).map LLMCall.provider = [Provider.openrouter] ∧
    ((callLLM envOpenRouterOnly trFail "p").1).map LLMCall.url = [endpointOf Provider.openrouter] := by
  have h := c1_callLLM_selects_exactly_one envOpenRouterOnly trFail "p" Provider.openrouter (by decide)
  exact ⟨by decide, h.1, h.2⟩

/-- C7: when none of the three credential variables is set (truthy),
`callLLM` fails with the "No API key found" configuration error and the
request list is empty — no network call is attempted. -/
theorem c7_no_key_no_network (env : Env) (transport : Transport) (prompt : String)
    (h1 : isSet env.OPENROUTER_API_KEY = false)
    (h2 : isSet env.OPENAI_API_KEY = false)
    (h3 : isSet env.ANTHROPIC_API_KEY = false) :
    callLLM env transport prompt =
      ([], .error "No API key found. Please set OPENAI_API_KEY, ANTHROPIC_API_KEY, or OPENROUTER_API_KEY environment variable.") := by
  unfold callLLM
  simp [h1, h2, h3]

/-- C7 witness: the empty environment yields the configuration error and
zero requests. -/
theorem c7_witness :
    callLLM envNone trOk "p" =
      ([], .error "No API key found. Please set OPENAI_API_KEY, ANTHROPIC_API_KEY, or OPENROUTER_API_KEY environment variable.") :=
  c7_no_key_no_network envNone trOk "p" rfl rfl rfl

/-- C2 counterexample: the normalization performed by the `ai` entry
point does not remove untagged triple-backtick fences — on an input
wrapped in plain ``` fences it returns the input unchanged instead of
the inner text. -/
theorem c2_counterexample :
    normalizeAi "```\nx\n```" = "```\nx\n```" ∧ ("```\nx\n```" : String) ≠ "x" := by
  exact ⟨by decide, by decide⟩

/-- C2 (amended): `run`'s normalization removes javascript-tagged,
js-tagged and untagged fences anywhere in the string and trims; its
output never contains three consecutive backticks.  (`ai`'s
normalization removes only the two tagged forms, per the
counterexample.) -/
theorem c2_run_normalization_removes_all_fences (s : String) :
    hasFence (normalizeRun s).data = false :=
  cleanRun_no_fence s.data

/-- C9: `run`'s fence-stripping-and-trim normalization is idempotent. -/
theorem c9_normalizeRun_idempotent (x : String) :
    normalizeRun (normalizeRun x) = normalizeRun x :=
  congrArg String.mk (cleanRun_idem x.data)

/-- C3 counterexample: in the spec's scenario A (OpenRouter credential
only, transport returning a ```js-fenced findMany call), `ai` resolves
to `undefined`, not to the fence-stripped command string. -/
theorem c3_counterexample :
    (ai "model User" envOpenRouterOnly trScenarioA (some "find all users")).ret = JSRet.undefined ∧
    JSRet.undefined ≠ JSRet.str "await prisma.user.findMany()" := by
  exact ⟨rfl, by decide⟩

/-- C3 (amended): `ai` displays the generated command but resolves to
`undefined` on every path — valid or invalid query, provider success or
failure. -/
theorem c3_ai_always_resolves_undefined (schema : String) (env : Env)
    (transport : Transport) (query : Option String) :
    (ai schema env transport query).ret = JSRet.undefined := by
  unfold ai
  cases query with
  | none => rfl
  | some q =>
    cases hq : (q == "") with
    | true => simp [hq]
    | false =>
      simp only [hq, Bool.false_eq_true, if_false]
      cases hc : callLLM env transport (generatePrompt schema q) with
      | mk calls out => cases out <;> rfl

/-- C4 counterexample: on a file system where every path (including the
conventional `prisma/schema.prisma` candidate) exists and reads a
schema, the loader called with an absent path still returns `none` — no
candidate list is tried. -/
theorem c4_counterexample :
    readPrismaSchema "/proj" fsAll none = none ∧
    fsAll.existsSync (pathJoin "/proj" "prisma/schema.prisma") = true ∧
    fsAll.readFileSync (pathJoin "/proj" "prisma/schema.prisma") =
      .ok "model User \x7b id Int @id \x7d" := by
  exact ⟨rfl, rfl, rfl⟩

/-- C4 (amended): the loader never throws — it returns `none` whenever
the path is absent, the resolved path does not exist, or the read
fails; it returns content only when the single explicitly given path,
resolved against the working directory, exists and reads successfully. -/
theorem c4_loader_single_path (cwd : String) (fs : FS) (schemaPath : Option String) :
    (readPrismaSchema cwd fs schemaPath = none) ∨
    (∃ p content, schemaPath = some p ∧
      fs.existsSync (if isAbsolute p then p else pathJoin cwd p) = true ∧
      fs.readFileSync (if isAbsolute p then p else pathJoin cwd p) = .ok content ∧
      readPrismaSchema cwd fs schemaPath = some content) := by
  cases schemaPath with
  | none => exact Or.inl rfl
  | some p =>
    cases he : fs.existsSync (if isAbsolute p then p else pathJoin cwd p) with
    | false =>
      left
      simp [readPrismaSchema, he]
    | true =>
      cases hrd : fs.readFileSync (if isAbsolute p then p else pathJoin cwd p) with
      | error e =>
        left
        simp [readPrismaSchema, he, hrd]
      | ok content =>
        right
        exact ⟨p, content, rfl, he, hrd, by simp [readPrismaSchema, he, hrd]⟩

/-- C5 counterexample: a schema file that exists and reads as the empty
string is conflated with the not-found case — `createAIFunction`
installs the stubs, not the real functions. -/
theorem c5_counterexample :
    readPrismaSchema "/proj" fsEmpty (some "prisma/schema.prisma") = some "" ∧
    createAIFunction "/proj" fsEmpty (some "prisma/schema.prisma") = AiFns.stubs ∧
    AiFns.stubs ≠ AiFns.real "" := by
  exact ⟨rfl, rfl, by decide⟩

/-- C5 (amended): whenever the loaded schema content is the empty string
(a falsy value for the `if (!schema)` guard), `createAIFunction`
installs the degraded stubs, exactly as in the not-found case. -/
theorem c5_empty_schema_degrades (cwd : String) (fs : FS) (schemaPath : Option String)
    (h : readPrismaSchema cwd fs schemaPath = some "") :
    createAIFunction cwd fs schemaPath = AiFns.stubs := by
  unfold createAIFunction
  rw [h]
  rfl

/-- C5 witness: concrete empty-content file system. -/
theorem c5_witness :
    readPrismaSchema "/proj" fsEmpty (some "prisma/schema.prisma") = some "" ∧
    createAIFunction "/proj" fsEmpty (some "prisma/schema.prisma") = AiFns.stubs :=
  ⟨rfl, c5_empty_schema_degrades "/proj" fsEmpty (some "prisma/schema.prisma") rfl⟩

/-- C6: whenever the loader returns `none`, the installed `ai` and `run`
are stubs: for every argument, they print only their fixed explanatory
message, issue no provider request, evaluate nothing, and resolve to
`undefined` leaving the stored command untouched. -/
theorem c6_stubs_print_fixed_message {α : Type} (cwd : String) (fs : FS)
    (schemaPath : Option String) (env : Env) (transport : Transport)
    (query : Option String) (replAvail : Bool) (evalCmd : String → Except String α)
    (lastCommand : Option String)
    (h : readPrismaSchema cwd fs schemaPath = none) :
    installedAi (createAIFunction cwd fs schemaPath) env transport query =
      { printed := [stubAiMsg], calls := [], ret := .undefined } ∧
    installedRun (createAIFunction cwd fs schemaPath) env transport replAvail
        evalCmd lastCommand query =
      ({ printed := [stubRunMsg], calls := [], evals := [], ret := .undefined }, lastCommand) := by
  have hc : createAIFunction cwd fs schemaPath = .stubs := by
    unfold createAIFunction
    rw [h]
  rw [hc]
  exact ⟨rfl, rfl⟩

/-- C6 witness: with no file present, the installed functions are the
stubs, even with a configured credential and working transport. -/
theorem c6_witness :
    readPrismaSchema "/proj" fsNone (some "prisma/schema.prisma") = none ∧
    installedAi (createAIFunction "/proj" fsNone (some "prisma/schema.prisma"))
        envOpenRouterOnly trOk (some "q") =
      { printed := [stubAiMsg], calls := [], ret := .undefined } ∧
    installedRun (createAIFunction "/proj" fsNone (some "prisma/schema.prisma"))
        envOpenRouterOnly trOk true evalOkU none (some "q") =
      ({ printed := [stubRunMsg], calls := [], evals := [], ret := .undefined }, none) := by
  have h := c6_stubs_print_fixed_message "/proj" fsNone (some "prisma/schema.prisma")
    envOpenRouterOnly trOk (some "q") true evalOkU none rfl
  exact ⟨rfl, h.1, h.2⟩

/-- C8: when generation succeeds and the session evaluation of the
normalized command fails, `run` catches the failure, prints its message
prefixed with the fixed error marker, and resolves to `null` instead of
propagating the error — on both the REPL-eval path and the direct-eval
fallback. -/
theorem c8_run_catches_eval_failure {α : Type} (schema : String) (env : Env)
    (transport : Transport) (replAvail : Bool) (evalCmd : String → Except String α)
    (lastCommand : Option String) (q content errMsg : String)
    (hq : (q == "") = false)
    (hok : (callLLM env transport (generatePrompt schema q)).2 = .ok content)
    (herr : evalCmd (normalizeRun content) = .error errMsg) :
    (run schema env transport replAvail evalCmd lastCommand (some q)).1.ret = RunRet.null ∧
    ("❌ Error: " ++ errMsg) ∈
      (run schema env transport replAvail evalCmd lastCommand (some q)).1.printed := by
  unfold run
  simp only [hq, Bool.false_eq_true, if_false]
  cases hc : callLLM env transport (generatePrompt schema q) with
  | mk calls out =>
    rw [hc] at hok
    simp only at hok
    subst hok
    cases replAvail <;> simp [herr]

/-- C10: (1) every `run` call that generates successfully stores the
normalized command into the `lastCommand` slot; (2) nothing `run`
produces ever depends on the previous value of that slot (it is written,
never read); (3) `run` with a missing/non-string argument prints only
the usage message, evaluates nothing, issues no request, and leaves the
slot unchanged.  (`ai` does not take the slot at all in this model,
mirroring that the source `ai` never mentions `lastCommand`.) -/
theorem c10_run_lastCommand_frame {α : Type} (schema : String) (env : Env)
    (transport : Transport) (replAvail : Bool) (evalCmd : String → Except String α)
    (lc lc' : Option String) (query : Option String) (q content : String) :
    ((query = some q → (q == "") = false →
        (callLLM env transport (generatePrompt schema q)).2 = .ok content →
        (run schema env transport replAvail evalCmd lc query).2 =
          some (normalizeRun content))) ∧
    ((run schema env transport replAvail evalCmd lc query).1 =
      (run schema env transport replAvail evalCmd lc' query).1) ∧
    ((run schema env transport replAvail evalCmd lc none).1 =
        { printed := usageRun, calls := [], evals := [], ret := .undefined } ∧
      (run schema env transport replAvail evalCmd lc none).2 = lc) := by
  refine ⟨?_, ?_, rfl, rfl⟩
  · intro he hq hok
    subst he
    unfold run
    simp only [hq, Bool.false_eq_true, if_false]
    cases hc : callLLM env transport (generatePrompt schema q) with
    | mk calls out =>
      rw [hc] at hok
      simp only at hok
      subst hok
      cases replAvail <;> cases hev : evalCmd (normalizeRun content) <;> simp [hev]
  · cases query with
    | none => rfl
    | some q =>
      unfold run
      cases hq : (q == "") with
      | true => simp [hq]
      | false =>
        simp only [hq, Bool.false_eq_true, if_false]
        cases hc : callLLM env transport (generatePrompt schema q) with
        | mk calls out =>
          cases out with
          | ok command =>
            cases replAvail <;> cases hev : evalCmd (normalizeRun command) <;> simp [hev]
          | error msg => rfl

/-- C10 witness: a successful concrete `run` stores the normalized
command; its observable result is unchanged when the prior slot value
differs; a no-argument call prints usage and leaves the slot intact. -/
theorem c10_witness :
    (run "model User" envOpenRouterOnly trOk true evalOkU (some "old") (some "find all users")).2 =
      some (normalizeRun "await prisma.user.count()") ∧
    (run "model User" envOpenRouterOnly trOk true evalOkU (some "old") (some "find all users")).1 =
      (run "model User" envOpenRouterOnly trOk true evalOkU none (some "find all users")).1 ∧
    (run "model User" envOpenRouterOnly trOk true evalOkU (some "old") none).1 =
      { printed := usageRun, calls := [], evals := [], ret := .undefined } ∧
    (run "model User" envOpenRouterOnly trOk true evalOkU (some "old") none).2 = some "old" := by
  have h := c10_run_lastCommand_frame "model User" envOpenRouterOnly trOk true evalOkU
    (some "old") none (some "find all users") "find all users" "await prisma.user.count()"
  exact ⟨h.1 rfl (by decide) (by decide), h.2.1, h.2.2.1, h.2.2.2⟩

/-- C8 witness: concrete failing evaluator — `run` resolves to `null`
and prints the prefixed evaluator message. -/
theorem c8_witness :
    (run "model User" envOpenRouterOnly trOk true evalFail none (some "find all users")).1.ret =
      RunRet.null ∧
    ("❌ Error: " ++ "DB down") ∈
      (run "model User" envOpenRouterOnly trOk true evalFail none (some "find all users")).1.printed := by
  have h := c8_run_catches_eval_failure "model User" envOpenRouterOnly trOk true evalFail
    none "find all users" "await prisma.user.count()" "DB down" (by decide) (by decide) rfl
  exact ⟨h.1, h.2⟩
